import Mathlib

/-
Verification of the Theatre.js core claims against a shallow embedding of
the repository sources. The main authority is src/theatre/core/src/coreExports.ts;
components whose implementation is not among the sources (only their .d.ts
declarations are) are modelled from the specification, as marked.
-/

namespace Theatre

/-- The value stored in IProjectConfig.state. The source treats it as an
arbitrary JS value: the state validator distinguishes arrays, null, and
objects carrying a definitionVersion field; primitives are also possible.
Embeds the shapes relevant to the validator in coreExports.ts. -/
inductive StateVal where
  | null
  | arr
  | objState (definitionVersion : Option String)
  | num (q : ℚ)
  | str (s : String)
  | boolV (b : Bool)
deriving DecidableEq

/-- JS truthiness of a state value, as tested by the if clause on config.state
in getProject (coreExports.ts line 75). null is falsy; arrays and objects are
truthy; 0, empty string and false are falsy. -/
def truthy : StateVal → Bool
  | StateVal.null => false
  | StateVal.arr => true
  | StateVal.objState _ => true
  | StateVal.num q => decide (q ≠ 0)
  | StateVal.str s => decide (s ≠ "")
  | StateVal.boolV b => b

/-- Modelled from the spec: the expected schema version of a project snapshot
(globals.currentProjectStateDefinitionVersion, imported by coreExports.ts from
a module that is not among the sources). The exact literal is immaterial; the
code only compares it for equality. -/
def currentProjectStateDefinitionVersion : String := "0.4.0"

/-- The success condition of shallowValidateOnDiskState (coreExports.ts lines
94 to 106): the validator throws InvalidArgumentError when the state is an
array, is loosely equal to null, or its definitionVersion differs from the
expected version. Property access on a primitive yields undefined, which also
differs from the expected version. -/
def shallowStateOk : StateVal → Bool
  | StateVal.objState dv => decide (dv = some currentProjectStateDefinitionVersion)
  | _ => false

/-- The id argument of getProject. The TS signature takes a string, but the
runtime check typeof value in validateProjectIdOrThrow exists for untyped
callers, so the embedding keeps a non-string case. -/
inductive IdArg where
  | ofString (s : String)
  | notAString
deriving DecidableEq

/-- IProjectConfig (the only modelled point of configuration is state, the
field the source code inspects; fast-deep-equal on the config is embedded as
structural equality). -/
structure IProjectConfig where
  state : Option StateVal
deriving DecidableEq

/-- The errors thrown by coreExports.ts, one constructor per throw site.
The first four sites construct InvalidArgumentError; the config mismatch in
getProject and the bad argument in onChange throw a plain Error. -/
inductive TheatreError where
  | projectIdNotAString
  | projectIdHasSurroundingWhitespace
  | projectIdTooShort
  | invalidOnDiskState
  | getProjectConfigMismatch
  | onChangeNotPointerOrPrism
deriving DecidableEq

/-- Which error constructors correspond to the InvalidArgumentError class in
the source. -/
def isInvalidArgumentError : TheatreError → Bool
  | TheatreError.projectIdNotAString => true
  | TheatreError.projectIdHasSurroundingWhitespace => true
  | TheatreError.projectIdTooShort => true
  | TheatreError.invalidOnDiskState => true
  | TheatreError.getProjectConfigMismatch => false
  | TheatreError.onChangeNotPointerOrPrism => false

/-- The trim method of JS strings, modelled over the character list of the
string: whitespace is stripped from both ends. -/
def trimString (s : String) : String :=
  String.mk (((s.data.dropWhile Char.isWhitespace).reverse.dropWhile Char.isWhitespace).reverse)

/-- validateProjectIdOrThrow (coreExports.ts lines 113 to 134): rejects a
non-string, a string with surrounding whitespace, and a string shorter than
3 characters, in that order. -/
def validateProjectIdOrThrow (value : IdArg) : Except TheatreError Unit :=
  match value with
  | IdArg.notAString => Except.error TheatreError.projectIdNotAString
  | IdArg.ofString s =>
    let idTrimmed := trimString s
    if idTrimmed.length ≠ s.length then
      Except.error TheatreError.projectIdHasSurroundingWhitespace
    else if idTrimmed.length < 3 then
      Except.error TheatreError.projectIdTooShort
    else Except.ok ()

/-- A project as registered in projectsSingleton. The stored config is the one
passed at creation; the public API handle is identified with the project
record itself in this embedding. -/
structure Project where
  pid : IdArg
  config : IProjectConfig
deriving DecidableEq

/-- The projectsSingleton registry (keyed map from id to project). -/
def Registry := List (IdArg × Project)

instance : DecidableEq Registry :=
  inferInstanceAs (DecidableEq (List (IdArg × Project)))

/-- projectsSingleton.get -/
def lookupProject : Registry → IdArg → Option Project
  | [], _ => none
  | (k, p) :: rest, id => if k = id then some p else lookupProject rest id

/-- Observable steps taken by getProject, used to state that a call performs
no partial ingestion and no re-validation. -/
inductive CoreEvent where
  | validatedProjectId
  | shallowValidatedState
  | deepValidatedState
  | createdProject
deriving DecidableEq

/-- Modelled from the spec: the TheatreProject constructor (its module is not
among the sources) registers the new project in projectsSingleton and seeds
its reactive values from the supplied snapshot, or from an empty default when
none was given. Embedded as adding the project to the registry and logging a
creation event. -/
def createProject (reg : Registry) (id : IdArg) (config : IProjectConfig)
    (evs : List CoreEvent) : Registry × List CoreEvent × Except TheatreError Project :=
  let proj : Project := { pid := id, config := config }
  ((id, proj) :: reg, evs ++ [CoreEvent.createdProject], Except.ok proj)

/-- getProject (coreExports.ts lines 50 to 88). The production flag embeds
process.env.NODE_ENV being the string production. Control flow, in source
order: return the existing project early (after a config deep-equality check
in non-production builds); otherwise validate the id (non-production builds
only; validateName, imported from a module not among the sources, performs
the same class of checks as validateProjectIdOrThrow immediately after it and
is folded into that step); then, when config.state is truthy, validate it
(shallow in non-production builds, deep in production, where the deep
validator just calls the shallow one); finally construct the project. -/
def getProject (production : Bool) (reg : Registry) (id : IdArg)
    (config : IProjectConfig) : Registry × List CoreEvent × Except TheatreError Project :=
  match lookupProject reg id with
  | some existingProject =>
    if production then (reg, [], Except.ok existingProject)
    else if config = existingProject.config then (reg, [], Except.ok existingProject)
    else (reg, [], Except.error TheatreError.getProjectConfigMismatch)
  | none =>
    match (if production then Except.ok () else validateProjectIdOrThrow id) with
    | Except.error e => (reg, [], Except.error e)
    | Except.ok _ =>
      let evs1 : List CoreEvent := if production then [] else [CoreEvent.validatedProjectId]
      match config.state with
      | none => createProject reg id config evs1
      | some s =>
        if truthy s then
          if shallowStateOk s then
            createProject reg id config
              (evs1 ++ [if production then CoreEvent.deepValidatedState
                        else CoreEvent.shallowValidatedState])
          else (reg, evs1, Except.error TheatreError.invalidOnDiskState)
        else createProject reg id config evs1

/-- A project identifier is malformed in the sense of claim C8. -/
def malformedProjectId : IdArg → Bool
  | IdArg.notAString => true
  | IdArg.ofString s =>
    decide ((trimString s).length ≠ s.length) || decide ((trimString s).length < 3)

/-- C1 (counterexample): the claim asserts that a call with a null
config.state fails, but getProject guards state validation with a JS
truthiness test, so a null state is skipped entirely and the project is
created and registered without any error. -/
theorem c1_counterexample :
    (getProject false [] (IdArg.ofString "abc") { state := some StateVal.null }) =
      ([(IdArg.ofString "abc",
          { pid := IdArg.ofString "abc", config := { state := some StateVal.null } })],
        [CoreEvent.validatedProjectId, CoreEvent.createdProject],
        Except.ok { pid := IdArg.ofString "abc", config := { state := some StateVal.null } }) := by
  rfl

/-- C1 (amended): for every call getProject(id, config) in either build mode,
where no project with that id exists, the id passes identifier validation,
config.state is truthy (in particular not null and not undefined), and the
state is an array or its definitionVersion does not equal the expected schema
version, the call fails synchronously with the InvalidArgumentError thrown by
the on-disk state validator (the realization of the SchemaVersionMismatch
kind) and performs no partial ingestion: the registry is unchanged and no
project is created. -/
theorem c1_state_validation (production : Bool) (reg : Registry) (id : IdArg)
    (config : IProjectConfig) (s : StateVal)
    (hfresh : lookupProject reg id = none)
    (hid : validateProjectIdOrThrow id = Except.ok ())
    (hstate : config.state = some s)
    (htruthy : truthy s = true)
    (hbad : shallowStateOk s = false) :
    (getProject production reg id config).2.2 = Except.error TheatreError.invalidOnDiskState ∧
    (getProject production reg id config).1 = reg ∧
    CoreEvent.createdProject ∉ (getProject production reg id config).2.1 := by
  unfold getProject
  rw [hfresh]
  cases production <;> simp [hid, hstate, htruthy, hbad]

/-- C1 witness. -/
theorem c1_witness :
    (getProject false [] (IdArg.ofString "abc")
        { state := some (StateVal.objState (some "9.9.9")) }).2.2 =
      Except.error TheatreError.invalidOnDiskState :=
  (c1_state_validation false [] (IdArg.ofString "abc")
    { state := some (StateVal.objState (some "9.9.9")) }
    (StateVal.objState (some "9.9.9")) rfl rfl rfl (by decide) (by decide)).1

/-- C8 (counterexample): the claim asserts that every malformed project id is
rejected synchronously, but in production builds getProject skips identifier
validation entirely, so a two-character id is accepted and a project is
created for it. -/
theorem c8_counterexample :
    (getProject true [] (IdArg.ofString "ab") { state := none }).2.2 =
      Except.ok { pid := IdArg.ofString "ab", config := { state := none } } := by
  rfl

/-- C8 (amended): in non-production builds, for every malformed project
identifier (a non-string value, a string with surrounding whitespace, or a
string shorter than 3 characters) passed to getProject when no project with
that id already exists, an InvalidArgumentError is reported synchronously to
the caller at the call site (the error is the direct result of the call, not
deferred into a tick), the registry is unchanged and no project is created.
In production builds identifier validation is skipped. -/
theorem c8_invalid_project_id (reg : Registry) (id : IdArg) (config : IProjectConfig)
    (hfresh : lookupProject reg id = none)
    (hmal : malformedProjectId id = true) :
    (∃ e, (getProject false reg id config).2.2 = Except.error e ∧
      isInvalidArgumentError e = true) ∧
    (getProject false reg id config).1 = reg ∧
    CoreEvent.createdProject ∉ (getProject false reg id config).2.1 := by
  have herr : ∃ e, validateProjectIdOrThrow id = Except.error e ∧
      isInvalidArgumentError e = true := by
    cases id with
    | notAString => exact ⟨TheatreError.projectIdNotAString, rfl, rfl⟩
    | ofString s =>
      unfold malformedProjectId at hmal
      unfold validateProjectIdOrThrow
      by_cases hws : (trimString s).length ≠ s.length
      · exact ⟨TheatreError.projectIdHasSurroundingWhitespace, by simp [hws], rfl⟩
      · have hshort : (trimString s).length < 3 := by
          simp [hws] at hmal
          exact hmal
        exact ⟨TheatreError.projectIdTooShort, by simp [hws, hshort], rfl⟩
  obtain ⟨e, he, hkind⟩ := herr
  unfold getProject
  rw [hfresh]
  simp [he]
  exact hkind

/-- C8 witness. -/
theorem c8_witness :
    ∃ e, (getProject false [] (IdArg.ofString "ab") { state := none }).2.2 =
      Except.error e ∧ isInvalidArgumentError e = true :=
  (c8_invalid_project_id [] (IdArg.ofString "ab") { state := none } rfl (by decide)).1

/-- C9: once a project exists under an id, every later getProject call with a
config deep-equal to the stored one returns the identical public API object
in both build modes, constructs no new project, leaves the registry unchanged
and re-validates nothing (the early return precedes all validation of the id
and the state). -/
theorem c9_getProject_idempotent (production : Bool) (reg : Registry) (id : IdArg)
    (proj : Project) (config : IProjectConfig)
    (hexists : lookupProject reg id = some proj)
    (heq : config = proj.config) :
    getProject production reg id config = (reg, [], Except.ok proj) := by
  unfold getProject
  rw [hexists]
  cases production with
  | false => simp [heq]
  | true => simp

/-- C9 witness. -/
theorem c9_witness :
    getProject false
        [(IdArg.ofString "abc", { pid := IdArg.ofString "abc", config := { state := none } })]
        (IdArg.ofString "abc") { state := none } =
      ([(IdArg.ofString "abc", { pid := IdArg.ofString "abc", config := { state := none } })],
        [], Except.ok { pid := IdArg.ofString "abc", config := { state := none } }) :=
  c9_getProject_idempotent false
    [(IdArg.ofString "abc", { pid := IdArg.ofString "abc", config := { state := none } })]
    (IdArg.ofString "abc") { pid := IdArg.ofString "abc", config := { state := none } }
    { state := none } (by decide) rfl

/-- C10: calling getProject for an existing project with a config that is not
deep-equal to the stored one throws an error in non-production builds, leaving
the existing project and the registry unchanged; in production builds the same
call does not throw and returns the existing project silently, ignoring the
new config. -/
theorem c10_getProject_config_mismatch (reg : Registry) (id : IdArg)
    (proj : Project) (config : IProjectConfig)
    (hexists : lookupProject reg id = some proj)
    (hne : config ≠ proj.config) :
    getProject false reg id config =
      (reg, [], Except.error TheatreError.getProjectConfigMismatch) ∧
    getProject true reg id config = (reg, [], Except.ok proj) := by
  constructor
  · unfold getProject
    rw [hexists]
    simp [hne]
  · unfold getProject
    rw [hexists]
    simp

/-- C10 witness. -/
theorem c10_witness :
    getProject false
        [(IdArg.ofString "abc", { pid := IdArg.ofString "abc", config := { state := none } })]
        (IdArg.ofString "abc") { state := some StateVal.arr } =
      ([(IdArg.ofString "abc", { pid := IdArg.ofString "abc", config := { state := none } })],
        [], Except.error TheatreError.getProjectConfigMismatch) :=
  (c10_getProject_config_mismatch
    [(IdArg.ofString "abc", { pid := IdArg.ofString "abc", config := { state := none } })]
    (IdArg.ofString "abc") { pid := IdArg.ofString "abc", config := { state := none } }
    { state := some StateVal.arr } (by decide) (by decide)).1

/-- A registered change subscription. Modelled from the spec: the reactive
graph remembers, per subscription, the last value delivered to it, so that a
write restoring the previous value produces no notification. -/
structure Subscription where
  cb : ℕ
  lastNotified : ℚ
deriving DecidableEq

/-- Modelled from the spec: the reactive graph state for a single observed
path. The live root value and the set of active subscriptions. -/
structure GraphState where
  value : ℚ
  subs : List Subscription
deriving DecidableEq

/-- Modelled from the spec: registering a callback on a prism
(Prism.onChange of the dataverse package, which is not among the sources).
When fireImmediately is set the callback fires once, synchronously, with the
value present at registration time; the subscription starts with that value
recorded as last delivered. The second component is the list of synchronous
calls made during registration. -/
def registerOnChange (st : GraphState) (cb : ℕ) (fireImmediately : Bool) :
    GraphState × List ℚ :=
  ({ st with subs := st.subs ++ [{ cb := cb, lastNotified := st.value }] },
   if fireImmediately then [st.value] else [])

/-- Whether the subscription at index i must be notified once the root value
has settled to final for this tick. -/
def notifyNeeded (subs : List Subscription) (final : ℚ) (i : ℕ) : Bool :=
  match subs.get? i with
  | some sub => decide (sub.lastNotified ≠ final)
  | none => false

/-- Modelled from the spec: one tick of the ticker flushes dirty-path
propagation. All writes of the tick coalesce into the final value; each
subscription receives at most one notification, carrying the final value,
and only when that value differs from the one last delivered to it. The
result pairs the new graph state with the notifications (subscription index,
delivered value) dispatched during the flush. -/
def tickFlush (writes : List ℚ) (st : GraphState) : GraphState × List (ℕ × ℚ) :=
  let final := writes.getLast?.getD st.value
  ({ value := final
     subs := st.subs.map fun sub =>
       if sub.lastNotified ≠ final then { sub with lastNotified := final } else sub },
   ((List.range st.subs.length).filter (notifyNeeded st.subs final)).map fun i => (i, final))

/-- The argument given to the public onChange function: a pointer, a prism,
or anything else. -/
inductive OnChangeArg where
  | pointer (target : ℕ)
  | prism (target : ℕ)
  | neitherPointerNorPrism

/-- onChange (coreExports.ts lines 158 to 183): a pointer is converted to a
prism and subscribed with fireImmediately set to true; a prism is subscribed
directly, also with fireImmediately true; anything else throws a plain Error
synchronously and registers nothing. The components are the new graph state,
the synchronous calls made during registration, and the outcome. -/
def onChange (st : GraphState) (p : OnChangeArg) (cb : ℕ) :
    GraphState × List ℚ × Except TheatreError Unit :=
  match p with
  | OnChangeArg.pointer _ =>
    let r := registerOnChange st cb true
    (r.1, r.2, Except.ok ())
  | OnChangeArg.prism _ =>
    let r := registerOnChange st cb true
    (r.1, r.2, Except.ok ())
  | OnChangeArg.neitherPointerNorPrism =>
    (st, [], Except.error TheatreError.onChangeNotPointerOrPrism)

/-- C3: for every argument that is neither a pointer nor a prism, onChange
throws synchronously at the call site (the error is the direct result of the
call, not deferred to a later tick) and no subscription is registered: the
graph state is returned unchanged and no callback is invoked. -/
theorem c3_onChange_invalid_argument (st : GraphState) (cb : ℕ) :
    onChange st OnChangeArg.neitherPointerNorPrism cb =
      (st, [], Except.error TheatreError.onChangeNotPointerOrPrism) := rfl

/-- Each notification emitted by a tick flush targets a distinct subscription
index, so any fixed subscription receives at most one per tick. -/
theorem countP_tick_calls_le_one (p : ℕ → Bool) (final : ℚ) (n : ℕ) (i : ℕ) :
    (((List.range n).filter p).map fun j => (j, final)).countP (fun c => c.1 == i) ≤ 1 := by
  rw [List.countP_map]
  have h1 : List.countP ((fun c => c.1 == i) ∘ fun j => (j, final))
      ((List.range n).filter p) = List.count i ((List.range n).filter p) := by
    rw [List.count]
    exact List.countP_congr (fun a _ => Iff.rfl)
  rw [h1]
  exact List.nodup_iff_count_le_one.mp ((List.nodup_range n).filter p) i

/-- C4: registering through onChange on a valid pointer or prism invokes the
callback exactly once, synchronously, with the value present at registration
time (onChange always passes fireImmediately true); afterwards, a tick
dispatches to each subscription at most one notification, and every
notification of a tick carries the tick's final coalesced value. -/
theorem c4_onChange_fire_semantics :
    (∀ (st : GraphState) (cb t : ℕ),
      (onChange st (OnChangeArg.pointer t) cb).2.1 = [st.value]) ∧
    (∀ (st : GraphState) (cb t : ℕ),
      (onChange st (OnChangeArg.prism t) cb).2.1 = [st.value]) ∧
    (∀ (writes : List ℚ) (st : GraphState) (i : ℕ),
      ((tickFlush writes st).2.countP fun c => c.1 == i) ≤ 1) ∧
    (∀ (writes : List ℚ) (st : GraphState) (c : ℕ × ℚ),
      c ∈ (tickFlush writes st).2 → c.2 = writes.getLast?.getD st.value) := by
  refine ⟨fun st cb t => rfl, fun st cb t => rfl, fun writes st i => ?_, fun writes st c hc => ?_⟩
  · exact countP_tick_calls_le_one _ _ _ _
  · unfold tickFlush at hc
    simp only [List.mem_map] at hc
    obtain ⟨j, _, rfl⟩ := hc
    rfl

/-- C4 witness. -/
theorem c4_witness :
    ((0, (2 : ℚ)) ∈ (tickFlush [1, 2] { value := 0, subs := [{ cb := 7, lastNotified := 0 }] }).2) ∧
    ((0, (2 : ℚ)).2 = ([(1 : ℚ), 2].getLast?.getD (0 : ℚ))) :=
  ⟨by decide,
    c4_onChange_fire_semantics.2.2.2 [1, 2]
      { value := 0, subs := [{ cb := 7, lastNotified := 0 }] } (0, 2) (by decide)⟩

/-- The default linear interpolator for number props. Modelled from the spec:
the prop-type interpolator implementations are not among the sources, but the
Interpolator documentation in src/unnamed/part_000 (lines 480 to 497) pins
the default number interpolator to left plus progression times (right minus
left), including its overshoot examples. -/
def numberInterpolator (left right progression : ℚ) : ℚ :=
  left + progression * (right - left)

/-- C6: the default linear interpolator does not clamp the progression. It
reproduces the documented values, including the overshoot example mapping
-50 to 50 at progression 2 to 150, and for a progression outside the unit
interval the result lies strictly beyond the corresponding endpoint. -/
theorem c6_linear_interpolator_no_clamp :
    (numberInterpolator (-50) 50 (1/2) = 0 ∧ numberInterpolator (-50) 50 0 = -50 ∧
      numberInterpolator (-50) 50 1 = 50 ∧ numberInterpolator (-50) 50 2 = 150) ∧
    (∀ l r t : ℚ, l < r → 1 < t → r < numberInterpolator l r t) ∧
    (∀ l r t : ℚ, l < r → t < 0 → numberInterpolator l r t < l) := by
  refine ⟨⟨by norm_num [numberInterpolator], by norm_num [numberInterpolator],
    by norm_num [numberInterpolator], by norm_num [numberInterpolator]⟩,
    fun l r t hlr ht => ?_, fun l r t hlr ht => ?_⟩
  · unfold numberInterpolator
    nlinarith
  · unfold numberInterpolator
    nlinarith

/-- C6 witness. -/
theorem c6_witness :
    (-50 : ℚ) < 50 ∧ (1 : ℚ) < 2 ∧ (50 : ℚ) < numberInterpolator (-50) 50 2 :=
  ⟨by norm_num, by norm_num,
    c6_linear_interpolator_no_clamp.2.1 (-50) 50 2 (by norm_num) (by norm_num)⟩

/-- Keyframe type tag (part_000 line 239). -/
inductive KeyframeType where
  | bezier
  | hold
deriving DecidableEq

/-- The four bezier control offsets of a keyframe
(part_000 line 245: leftX, leftY, rightX, rightY). -/
structure KeyframeHandles where
  leftX : ℚ
  leftY : ℚ
  rightX : ℚ
  rightY : ℚ
deriving DecidableEq

/-- Keyframe (part_000 lines 240 to 248), generic over the value type. -/
structure Keyframe (V : Type) where
  id : String
  value : V
  position : ℚ
  handles : KeyframeHandles
  connectedRight : Bool
  type : Option KeyframeType
deriving DecidableEq

/-- The x coordinate of the cubic bezier easing curve through the fixed
endpoints (0,0) and (1,1) with control points (x1, y1) and (x2, y2), at
curve parameter s. -/
def bezierX (x1 x2 s : ℚ) : ℚ :=
  3 * (1 - s) ^ 2 * s * x1 + 3 * (1 - s) * s ^ 2 * x2 + s ^ 3

/-- The y coordinate of the same curve. -/
def bezierY (y1 y2 s : ℚ) : ℚ :=
  3 * (1 - s) ^ 2 * s * y1 + 3 * (1 - s) * s ^ 2 * y2 + s ^ 3

/-- Bisection search for the curve parameter whose x coordinate meets the
desired progression, over the bracket from lo to hi. -/
def solveBezierParam (x1 x2 t : ℚ) : ℕ → ℚ → ℚ → ℚ
  | 0, lo, _ => lo
  | n + 1, lo, hi =>
    if bezierX x1 x2 ((lo + hi) / 2) < t then solveBezierParam x1 x2 t n ((lo + hi) / 2) hi
    else solveBezierParam x1 x2 t n lo ((lo + hi) / 2)

def bezierEaseIterations : ℕ := 16

/-- Modelled from the spec: the cubic bezier easing map of the interpolation
engine (its implementation is not among the sources). The normalized
progression t is mapped through the easing curve by solving for the curve
parameter at x equal to t and reading off y. -/
def bezierEase (x1 y1 x2 y2 t : ℚ) : ℚ :=
  bezierY y1 y2 (solveBezierParam x1 x2 t bezierEaseIterations 0 1)

theorem solveBezierParam_zero (x1 x2 : ℚ) (h1 : 0 ≤ x1) (h2 : 0 ≤ x2) :
    ∀ (n : ℕ) (hi : ℚ), 0 ≤ hi → hi ≤ 1 → solveBezierParam x1 x2 0 n 0 hi = 0 := by
  intro n
  induction n with
  | zero => intro hi _ _; rfl
  | succ n ih =>
    intro hi h0 hle
    have hs0 : 0 ≤ (0 + hi) / 2 := by linarith
    have hs1 : (0 + hi) / 2 ≤ 1 := by linarith
    have hcomp : 0 ≤ 1 - (0 + hi) / 2 := by linarith
    have hx : 0 ≤ bezierX x1 x2 ((0 + hi) / 2) := by
      unfold bezierX
      have t1 : 0 ≤ 3 * (1 - (0 + hi) / 2) ^ 2 * ((0 + hi) / 2) * x1 :=
        mul_nonneg (mul_nonneg (mul_nonneg (by norm_num) (sq_nonneg _)) hs0) h1
      have t2 : 0 ≤ 3 * (1 - (0 + hi) / 2) * ((0 + hi) / 2) ^ 2 * x2 :=
        mul_nonneg (mul_nonneg (mul_nonneg (by norm_num) hcomp) (sq_nonneg _)) h2
      have t3 : 0 ≤ ((0 + hi) / 2) ^ 3 := pow_nonneg hs0 3
      linarith
    simp only [solveBezierParam]
    rw [if_neg (not_lt.mpr hx)]
    exact ih ((0 + hi) / 2) hs0 hs1

/-- At progression 0 the easing returns 0, provided the handle x offsets are
nonnegative (so that the curve's x coordinate is nonnegative on the unit
bracket). -/
theorem bezierEase_zero (x1 y1 x2 y2 : ℚ) (h1 : 0 ≤ x1) (h2 : 0 ≤ x2) :
    bezierEase x1 y1 x2 y2 0 = 0 := by
  unfold bezierEase
  rw [solveBezierParam_zero x1 x2 h1 h2 bezierEaseIterations 1 (by norm_num) (le_refl 1)]
  unfold bezierY
  ring

/-- Modelled from the spec (4.4): the value of one segment between bounding
keyframes k0 and k1. A hold keyframe propagates k0's value unchanged;
otherwise the normalized progression is eased through the cubic bezier
defined by k0's right handle and k1's left handle and fed to the config's
interpolator. Division on the rationals is total, so a zero-width segment
cannot raise here, and the sampling theorems show the zero-width pair is
never the one selected. -/
def segmentValue {V : Type} (interp : V → V → ℚ → V) (k0 k1 : Keyframe V) (pos : ℚ) : V :=
  if k0.type = some KeyframeType.hold then k0.value
  else
    interp k0.value k1.value
      (bezierEase k0.handles.rightX k0.handles.rightY k1.handles.leftX k1.handles.leftY
        ((pos - k0.position) / (k1.position - k0.position)))

/-- Modelled from the spec (4.4): scan for the bounding pair. The invariant
of the scan is that the current keyframe k0 is already known to lie at or
before the sampled position; past the last keyframe the last value is held. -/
def sampleAux {V : Type} (interp : V → V → ℚ → V) (k0 : Keyframe V) :
    List (Keyframe V) → ℚ → V
  | [], _ => k0.value
  | k1 :: rest, pos =>
    if pos < k1.position then segmentValue interp k0 k1 pos
    else sampleAux interp k1 rest pos

/-- Modelled from the spec (4.4): sampleTrack. Before the first keyframe the
first value is held; otherwise the bounding pair is located and its segment
sampled. An empty track has no value. -/
def sampleTrack {V : Type} (interp : V → V → ℚ → V) (kfs : List (Keyframe V))
    (pos : ℚ) : Option V :=
  match kfs with
  | [] => none
  | k :: rest => some (if pos < k.position then k.value else sampleAux interp k rest pos)

theorem sampleAux_append {V : Type} (interp : V → V → ℚ → V) (p : ℚ) :
    ∀ (pre : List (Keyframe V)) (kcur k0 : Keyframe V) (rest : List (Keyframe V)),
      (∀ k ∈ pre, k.position ≤ p) → k0.position ≤ p →
      sampleAux interp kcur (pre ++ k0 :: rest) p = sampleAux interp k0 rest p := by
  intro pre
  induction pre with
  | nil =>
    intro kcur k0 rest _ hk0
    simp only [List.nil_append, sampleAux]
    rw [if_neg (not_lt.mpr hk0)]
  | cons ka pre2 ih =>
    intro kcur k0 rest hpre hk0
    have hka : ka.position ≤ p := hpre ka (List.mem_cons_self _ _)
    simp only [List.cons_append, sampleAux]
    rw [if_neg (not_lt.mpr hka)]
    exact ih ka k0 rest (fun k hk => hpre k (List.mem_cons_of_mem _ hk)) hk0

/-- C5: sampling at the position of a zero-duration segment (bounding
keyframes with equal positions) performs no division by zero: the scan never
selects the zero-width pair, and the sampled value is the later keyframe's
value. The track is given as keyframes at or before the position, the two
coincident keyframes, and keyframes strictly after it; the interpolator must
return its left operand at progression 0 and the relevant handle x offsets
are nonnegative. -/
theorem c5_zero_duration_segment {V : Type} (interp : V → V → ℚ → V)
    (hinterp : ∀ l r, interp l r 0 = l)
    (pre post : List (Keyframe V)) (k0 k1 : Keyframe V) (p : ℚ)
    (hk0 : k0.position = p) (hk1 : k1.position = p)
    (hpre : ∀ k ∈ pre, k.position ≤ p)
    (hpost : ∀ k ∈ post, p < k.position)
    (hrx : 0 ≤ k1.handles.rightX)
    (hlx : ∀ k ∈ post, 0 ≤ k.handles.leftX) :
    sampleTrack interp (pre ++ k0 :: k1 :: post) p = some k1.value := by
  have hbase : sampleAux interp k0 (k1 :: post) p = k1.value := by
    simp only [sampleAux]
    rw [if_neg (not_lt.mpr (le_of_eq hk1))]
    cases post with
    | nil => simp only [sampleAux]
    | cons k2 rest =>
      simp only [sampleAux]
      rw [if_pos (hpost k2 (List.mem_cons_self _ _))]
      unfold segmentValue
      by_cases hh : k1.type = some KeyframeType.hold
      · rw [if_pos hh]
      · rw [if_neg hh]
        have ht : (p - k1.position) / (k2.position - k1.position) = 0 := by
          rw [hk1, sub_self, zero_div]
        rw [ht, bezierEase_zero _ _ _ _ hrx (hlx k2 (List.mem_cons_self _ _)), hinterp]
  cases pre with
  | nil =>
    simp only [List.nil_append, sampleTrack]
    rw [if_neg (not_lt.mpr (le_of_eq hk0))]
    simp only [sampleAux]
    rw [if_neg (not_lt.mpr (le_of_eq hk1))]
    simp only [sampleAux] at hbase
    rw [if_neg (not_lt.mpr (le_of_eq hk1))] at hbase
    rw [hbase]
  | cons ka pre2 =>
    have hka : ka.position ≤ p := hpre ka (List.mem_cons_self _ _)
    simp only [List.cons_append, sampleTrack]
    rw [if_neg (not_lt.mpr hka)]
    rw [sampleAux_append interp p pre2 ka k0 (k1 :: post)
      (fun k hk => hpre k (List.mem_cons_of_mem _ hk)) (le_of_eq hk0)]
    rw [hbase]

def kfA : Keyframe ℚ :=
  { id := "a", value := 5, position := 1,
    handles := { leftX := 0, leftY := 0, rightX := 1/2, rightY := 1 },
    connectedRight := false, type := none }

def kfB : Keyframe ℚ :=
  { id := "b", value := 7, position := 1,
    handles := { leftX := 0, leftY := 0, rightX := 1/2, rightY := 1 },
    connectedRight := false, type := none }

def kfC : Keyframe ℚ :=
  { id := "c", value := 9, position := 2,
    handles := { leftX := 1/2, leftY := 0, rightX := 1/2, rightY := 1 },
    connectedRight := false, type := none }

/-- C5 witness. -/
theorem c5_witness : sampleTrack numberInterpolator [kfA, kfB, kfC] 1 = some 7 := by
  have h := c5_zero_duration_segment numberInterpolator
    (fun l r => by unfold numberInterpolator; ring)
    [] [kfC] kfA kfB 1 rfl rfl (by intro k hk; cases hk)
    (by intro k hk
        have hkc : k = kfC := by
          cases hk with
          | head => rfl
          | tail _ hmem => cases hmem
        rw [hkc]; norm_num [kfC])
    (by norm_num [kfB])
    (by intro k hk
        have hkc : k = kfC := by
          cases hk with
          | head => rfl
          | tail _ hmem => cases hmem
        rw [hkc]; norm_num [kfC])
  simpa [kfB] using h

/-- IPlaybackDirection (part_000 line 912). -/
inductive IPlaybackDirection where
  | normal
  | reverse
  | alternate
  | alternateReverse
deriving DecidableEq

/-- The playback configuration accepted by play (part_000 lines 962 to 987).
iterationCount none stands for Infinity. -/
structure PlaybackConf where
  iterationCount : Option ℕ
  rangeFrom : ℚ
  rangeTo : ℚ
  rate : ℚ
  direction : IPlaybackDirection
deriving DecidableEq

/-- Modelled from the spec (4.5): the player state machine over idle,
playing and paused. -/
inductive PlayerStatus where
  | idle
  | playing
  | paused
deriving DecidableEq

/-- Modelled from the spec (4.5): the player state. The completion signal of
the active play call is none while pending; it resolves to a boolean and
only to a boolean (the promise never rejects, so the model has no rejected
case at all). -/
structure PlayerState where
  status : PlayerStatus
  position : ℚ
  conf : PlaybackConf
  iterationsDone : ℕ
  signal : Option Bool
deriving DecidableEq

/-- The sign the current iteration contributes to the direction of travel:
alternate style directions flip it on every completed iteration. -/
def iterDir (d : IPlaybackDirection) (iterationsDone : ℕ) : ℚ :=
  match d with
  | IPlaybackDirection.normal => 1
  | IPlaybackDirection.reverse => -1
  | IPlaybackDirection.alternate => if iterationsDone % 2 = 0 then 1 else -1
  | IPlaybackDirection.alternateReverse => if iterationsDone % 2 = 0 then -1 else 1

/-- The velocity of the playhead: rate times the per-iteration direction. -/
def effVelocity (st : PlayerState) : ℚ :=
  st.conf.rate * iterDir st.conf.direction st.iterationsDone

/-- The raw playhead position the current tick advances to. -/
def nextPos (st : PlayerState) (dt : ℚ) : ℚ :=
  st.position + effVelocity st * dt

/-- Whether the iteration now being completed is the final one. An infinite
iteration count never finishes. -/
def lastIteration (st : PlayerState) : Bool :=
  match st.conf.iterationCount with
  | some n => decide (n ≤ st.iterationsDone + 1)
  | none => false

/-- Wrapping after crossing the forward range boundary mid-run: alternate
style directions reflect off the boundary, plain directions restart at the
range start carrying the overshoot. -/
def wrapForward (st : PlayerState) (p2 : ℚ) : ℚ :=
  match st.conf.direction with
  | IPlaybackDirection.alternate => 2 * st.conf.rangeTo - p2
  | IPlaybackDirection.alternateReverse => 2 * st.conf.rangeTo - p2
  | _ => st.conf.rangeFrom + (p2 - st.conf.rangeTo)

/-- Wrapping after crossing the backward range boundary mid-run. -/
def wrapBackward (st : PlayerState) (p2 : ℚ) : ℚ :=
  match st.conf.direction with
  | IPlaybackDirection.alternate => 2 * st.conf.rangeFrom - p2
  | IPlaybackDirection.alternateReverse => 2 * st.conf.rangeFrom - p2
  | _ => st.conf.rangeTo - (st.conf.rangeFrom - p2)

/-- Modelled from the spec (4.5): one tick while playing advances the
position by rate times elapsed time with the per-iteration direction sign;
on crossing a range boundary the player either stops with the completion
signal resolved true (iterations exhausted) or wraps and reverses according
to the direction. A tick in any other status changes nothing. -/
def tick (dt : ℚ) (st : PlayerState) : PlayerState :=
  if st.status = PlayerStatus.playing then
    if 0 ≤ effVelocity st then
      if st.conf.rangeTo ≤ nextPos st dt then
        if lastIteration st then
          { st with status := PlayerStatus.idle, position := st.conf.rangeTo,
                    iterationsDone := st.iterationsDone + 1, signal := some true }
        else
          { st with position := wrapForward st (nextPos st dt),
                    iterationsDone := st.iterationsDone + 1 }
      else { st with position := nextPos st dt }
    else
      if nextPos st dt ≤ st.conf.rangeFrom then
        if lastIteration st then
          { st with status := PlayerStatus.idle, position := st.conf.rangeFrom,
                    iterationsDone := st.iterationsDone + 1, signal := some true }
        else
          { st with position := wrapBackward st (nextPos st dt),
                    iterationsDone := st.iterationsDone + 1 }
      else { st with position := nextPos st dt }
  else st

/-- Modelled from the spec (4.5): pause freezes the position, moves a playing
player to paused and resolves the pending completion signal to false; it is
idempotent when already paused or idle. -/
def pause (st : PlayerState) : PlayerState :=
  if st.status = PlayerStatus.playing then
    { st with status := PlayerStatus.paused, signal := some false }
  else st

/-- Modelled from the spec (4.5): play moves an idle or paused player to
playing with a fresh pending completion signal, starting from the range
boundary matching the configured direction. -/
def play (conf : PlaybackConf) (st : PlayerState) : PlayerState :=
  if st.status = PlayerStatus.playing then st
  else
    { status := PlayerStatus.playing,
      position :=
        match conf.direction with
        | IPlaybackDirection.reverse => conf.rangeTo
        | IPlaybackDirection.alternateReverse => conf.rangeTo
        | _ => conf.rangeFrom,
      conf := conf, iterationsDone := 0, signal := none }

/-- The external stimuli a player receives over time. -/
inductive PlayerEvent where
  | tickBy (dt : ℚ)
  | pauseNow

/-- Run a sequence of player events. -/
def runPlayer : List PlayerEvent → PlayerState → PlayerState
  | [], st => st
  | PlayerEvent.tickBy dt :: rest, st => runPlayer rest (tick dt st)
  | PlayerEvent.pauseNow :: rest, st => runPlayer rest (pause st)

/-- C2: the completion signal of a play call resolves to true when the final
iteration finishes naturally on a tick (in either direction of travel),
resolves to false the moment pause interrupts a playing player (whose
position stays frozen), and can never reject: under any sequence of ticks
and pauses the signal is either still pending or resolved to a boolean,
there being no failure state at all. -/
theorem c2_play_completion :
    (∀ st : PlayerState, st.status = PlayerStatus.playing →
      (pause st).signal = some false ∧ (pause st).position = st.position) ∧
    (∀ (st : PlayerState) (dt : ℚ), st.status = PlayerStatus.playing →
      0 ≤ effVelocity st → st.conf.rangeTo ≤ nextPos st dt → lastIteration st = true →
      (tick dt st).signal = some true) ∧
    (∀ (st : PlayerState) (dt : ℚ), st.status = PlayerStatus.playing →
      ¬ 0 ≤ effVelocity st → nextPos st dt ≤ st.conf.rangeFrom → lastIteration st = true →
      (tick dt st).signal = some true) ∧
    (∀ (evs : List PlayerEvent) (st : PlayerState),
      (runPlayer evs st).signal = none ∨ (runPlayer evs st).signal = some true ∨
        (runPlayer evs st).signal = some false) := by
  refine ⟨fun st hp => ?_, fun st dt hp hv hcross hlast => ?_,
    fun st dt hp hv hcross hlast => ?_, fun evs st => ?_⟩
  · unfold pause
    rw [if_pos hp]
    exact ⟨rfl, rfl⟩
  · unfold tick
    rw [if_pos hp, if_pos hv, if_pos hcross, if_pos hlast]
  · unfold tick
    rw [if_pos hp, if_neg hv, if_pos hcross, if_pos hlast]
  · rcases h : (runPlayer evs st).signal with _ | b
    · exact Or.inl rfl
    · cases b
      · exact Or.inr (Or.inr rfl)
      · exact Or.inr (Or.inl rfl)

def confW : PlaybackConf :=
  { iterationCount := some 2, rangeFrom := 0, rangeTo := 1, rate := 1,
    direction := IPlaybackDirection.alternate }

/-- A playing state in the middle of the second and final iteration of the
alternate run of confW: the playhead travels backwards from one half, about
to reach the range start. -/
def stW : PlayerState :=
  { status := PlayerStatus.playing, position := 1/2, conf := confW,
    iterationsDone := 1, signal := none }

/-- C2 witness: pausing the mid-flight player resolves its signal false and
freezes the position; alternatively, the final half-unit tick completes the
second iteration of the alternate run and resolves the signal true. -/
theorem c2_witness :
    ((pause stW).signal = some false ∧ (pause stW).position = stW.position) ∧
    (tick (1/2) stW).signal = some true :=
  ⟨c2_play_completion.1 stW rfl,
    c2_play_completion.2.2.1 stW (1/2) rfl
      (by norm_num [effVelocity, iterDir, stW, confW])
      (by norm_num [nextPos, effVelocity, iterDir, stW, confW])
      rfl⟩


/-- A JS value as fed to deserializeAndSanitize. Non-finite numbers (NaN and
the infinities) are collected in one constructor, since the sanitizers only
ever reject them. Arrays are not needed by any accepting case and would be
rejected like any other shape mismatch. -/
inductive JSValue where
  | nullV
  | nanV
  | num (q : ℚ)
  | str (s : String)
  | boolV (b : Bool)
  | obj (fields : List (String × JSValue))

/-- Field lookup on a JS object (first hit wins). -/
def lookupField : List (String × JSValue) → String → Option JSValue
  | [], _ => none
  | (k, v) :: rest, key => if k = key then some v else lookupField rest key

/-- Numeric field extraction: a finite number or nothing. -/
def numField : Option JSValue → Option ℚ
  | some (JSValue.num q) => some q
  | _ => none

/-
Modelled from the spec (sections 3 and 4.1): the prop-type configs. The enum
variant is omitted: its constructor is not exported by the public API in
part_000 (lines 633 to 659), so no enum config can be constructed. Compound
props are an ordered mapping of named sub-configs, mutually recursive with
the config type.
-/
mutual

inductive PropTypeConfig where
  | numberC
  | booleanC
  | stringC
  | stringLiteralC (values : List String)
  | rgbaC
  | imageC
  | fileC
  | compoundC (props : CompoundProps)

inductive CompoundProps where
  | nil
  | cons (key : String) (c : PropTypeConfig) (rest : CompoundProps)

end

/-- The keys of a compound config, in declared order. -/
def propsKeys : CompoundProps → List String
  | CompoundProps.nil => []
  | CompoundProps.cons k _ rest => k :: propsKeys rest

/-- Modelled from the spec: asset sanitization shared by the image and file
configs. The object must carry the matching type tag; the id is kept when it
is a string, omitted when absent, rejected otherwise. The output is rebuilt,
retaining no reference into the input. -/
def assetSanitize (assetType : String) (fields : List (String × JSValue)) : Option JSValue :=
  match lookupField fields "type" with
  | some (JSValue.str t) =>
    if t = assetType then
      match lookupField fields "id" with
      | some (JSValue.str s) =>
        some (JSValue.obj [("type", JSValue.str assetType), ("id", JSValue.str s)])
      | none => some (JSValue.obj [("type", JSValue.str assetType)])
      | some _ => none
    else none
  | _ => none

/-
Modelled from the spec (section 4.1): deserializeAndSanitize per config (the
implementations behind the IBasePropType interface of part_000 lines 523 to
546 are not among the sources). Simple types validate the JS primitive shape
and numeric finiteness; rgba requires four finite numeric channels and
rebuilds a canonical object; compound applies sub-sanitizers field by field,
omitting fields that individually fail, and rejects only a non-object input;
the result never aliases the input.
-/
mutual

def deserializeAndSanitize : PropTypeConfig → JSValue → Option JSValue
  | PropTypeConfig.numberC, JSValue.num q => some (JSValue.num q)
  | PropTypeConfig.numberC, _ => none
  | PropTypeConfig.booleanC, JSValue.boolV b => some (JSValue.boolV b)
  | PropTypeConfig.booleanC, _ => none
  | PropTypeConfig.stringC, JSValue.str s => some (JSValue.str s)
  | PropTypeConfig.stringC, _ => none
  | PropTypeConfig.stringLiteralC vals, JSValue.str s =>
    if s ∈ vals then some (JSValue.str s) else none
  | PropTypeConfig.stringLiteralC _, _ => none
  | PropTypeConfig.rgbaC, JSValue.obj fields =>
    match numField (lookupField fields "r"), numField (lookupField fields "g"),
        numField (lookupField fields "b"), numField (lookupField fields "a") with
    | some r, some g, some b, some a =>
      some (JSValue.obj [("r", JSValue.num r), ("g", JSValue.num g),
                         ("b", JSValue.num b), ("a", JSValue.num a)])
    | _, _, _, _ => none
  | PropTypeConfig.rgbaC, _ => none
  | PropTypeConfig.imageC, JSValue.obj fields => assetSanitize "image" fields
  | PropTypeConfig.imageC, _ => none
  | PropTypeConfig.fileC, JSValue.obj fields => assetSanitize "file" fields
  | PropTypeConfig.fileC, _ => none
  | PropTypeConfig.compoundC props, JSValue.obj fields =>
    some (JSValue.obj (sanitizeCompoundFields props fields))
  | PropTypeConfig.compoundC _, _ => none

def sanitizeCompoundFields : CompoundProps → List (String × JSValue) → List (String × JSValue)
  | CompoundProps.nil, _ => []
  | CompoundProps.cons k c rest, fields =>
    (match lookupField fields k with
     | some v =>
       match deserializeAndSanitize c v with
       | some w => [(k, w)]
       | none => []
     | none => []) ++ sanitizeCompoundFields rest fields

end

/-
Well-formedness of a config: compound keys are distinct at every level,
mirroring the TS Record whose literal keys cannot repeat.
-/
mutual

def WFConfig : PropTypeConfig → Bool
  | PropTypeConfig.compoundC props => decide (propsKeys props).Nodup && WFProps props
  | _ => true

def WFProps : CompoundProps → Bool
  | CompoundProps.nil => true
  | CompoundProps.cons _ c rest => WFConfig c && WFProps rest

end

theorem lookupField_append_notmem (e l : List (String × JSValue)) (k : String)
    (he : ∀ pair ∈ e, pair.1 ≠ k) :
    lookupField (e ++ l) k = lookupField l k := by
  induction e with
  | nil => rfl
  | cons pair e2 ih =>
    simp only [List.cons_append, lookupField]
    rw [if_neg (he pair (List.mem_cons_self _ _))]
    exact ih fun q hq => he q (List.mem_cons_of_mem _ hq)

theorem lookupField_sanitize_none (props : CompoundProps)
    (fields : List (String × JSValue)) (k : String) (hk : k ∉ propsKeys props) :
    lookupField (sanitizeCompoundFields props fields) k = none := by
  cases props with
  | nil => rfl
  | cons key c rest =>
    have hne : key ≠ k := by
      intro hEq
      exact hk (hEq ▸ List.mem_cons_self _ _)
    have hkr : k ∉ propsKeys rest := fun hm => hk (List.mem_cons_of_mem _ hm)
    cases hl : lookupField fields key with
    | none =>
      simp only [sanitizeCompoundFields, hl, List.nil_append]
      exact lookupField_sanitize_none rest fields k hkr
    | some v =>
      cases hd : deserializeAndSanitize c v with
      | none =>
        simp only [sanitizeCompoundFields, hl, hd, List.nil_append]
        exact lookupField_sanitize_none rest fields k hkr
      | some w =>
        simp only [sanitizeCompoundFields, hl, hd, List.singleton_append, lookupField]
        rw [if_neg hne]
        exact lookupField_sanitize_none rest fields k hkr

theorem sanitizeCompoundFields_skip (props : CompoundProps)
    (e l : List (String × JSValue)) (he : ∀ pair ∈ e, pair.1 ∉ propsKeys props) :
    sanitizeCompoundFields props (e ++ l) = sanitizeCompoundFields props l := by
  cases props with
  | nil => rfl
  | cons key c rest =>
    have hkey : ∀ pair ∈ e, pair.1 ≠ key := by
      intro pair hp hEq
      exact he pair hp (hEq ▸ List.mem_cons_self _ _)
    have hrest : ∀ pair ∈ e, pair.1 ∉ propsKeys rest := by
      intro pair hp hm
      exact he pair hp (List.mem_cons_of_mem _ hm)
    simp only [sanitizeCompoundFields, lookupField_append_notmem e l key hkey,
      sanitizeCompoundFields_skip rest e l hrest]

mutual

theorem deserializeAndSanitize_idem (c : PropTypeConfig) (hwf : WFConfig c = true)
    (v w : JSValue) (h : deserializeAndSanitize c v = some w) :
    deserializeAndSanitize c w = some w := by
  cases c with
  | numberC =>
    cases v <;> try exact Option.noConfusion h
    obtain rfl := Option.some.inj h
    rfl
  | booleanC =>
    cases v <;> try exact Option.noConfusion h
    obtain rfl := Option.some.inj h
    rfl
  | stringC =>
    cases v <;> try exact Option.noConfusion h
    obtain rfl := Option.some.inj h
    rfl
  | stringLiteralC vals =>
    cases v <;> try exact Option.noConfusion h
    rename_i s
    have hunfold : deserializeAndSanitize (PropTypeConfig.stringLiteralC vals) (JSValue.str s) =
        if s ∈ vals then some (JSValue.str s) else none := rfl
    rw [hunfold] at h
    by_cases hs : s ∈ vals
    · rw [if_pos hs] at h
      obtain rfl := Option.some.inj h
      rw [hunfold, if_pos hs]
    · rw [if_neg hs] at h
      exact Option.noConfusion h
  | rgbaC =>
    cases v <;> try exact Option.noConfusion h
    rename_i fields
    have hunfold : deserializeAndSanitize PropTypeConfig.rgbaC (JSValue.obj fields) =
        (match numField (lookupField fields "r"), numField (lookupField fields "g"),
            numField (lookupField fields "b"), numField (lookupField fields "a") with
          | some r, some g, some b, some a =>
            some (JSValue.obj [("r", JSValue.num r), ("g", JSValue.num g),
                               ("b", JSValue.num b), ("a", JSValue.num a)])
          | _, _, _, _ => none) := rfl
    rw [hunfold] at h
    split at h
    · obtain rfl := Option.some.inj h
      rfl
    · exact Option.noConfusion h
  | imageC =>
    cases v <;> try exact Option.noConfusion h
    rename_i fields
    have hunfold : deserializeAndSanitize PropTypeConfig.imageC (JSValue.obj fields) =
        assetSanitize "image" fields := rfl
    rw [hunfold] at h
    unfold assetSanitize at h
    split at h
    · split at h
      · split at h
        · obtain rfl := Option.some.inj h
          rfl
        · obtain rfl := Option.some.inj h
          rfl
        · exact Option.noConfusion h
      · exact Option.noConfusion h
    · exact Option.noConfusion h
  | fileC =>
    cases v <;> try exact Option.noConfusion h
    rename_i fields
    have hunfold : deserializeAndSanitize PropTypeConfig.fileC (JSValue.obj fields) =
        assetSanitize "file" fields := rfl
    rw [hunfold] at h
    unfold assetSanitize at h
    split at h
    · split at h
      · split at h
        · obtain rfl := Option.some.inj h
          rfl
        · obtain rfl := Option.some.inj h
          rfl
        · exact Option.noConfusion h
      · exact Option.noConfusion h
    · exact Option.noConfusion h
  | compoundC props =>
    cases v <;> try exact Option.noConfusion h
    rename_i fields
    obtain rfl := Option.some.inj h
    simp only [WFConfig, Bool.and_eq_true, decide_eq_true_eq] at hwf
    show some (JSValue.obj (sanitizeCompoundFields props (sanitizeCompoundFields props fields))) =
      some (JSValue.obj (sanitizeCompoundFields props fields))
    rw [sanitizeCompoundFields_idem props hwf.1 hwf.2 fields]
termination_by sizeOf c

theorem sanitizeCompoundFields_idem (props : CompoundProps)
    (hnd : (propsKeys props).Nodup) (hwf : WFProps props = true)
    (fields : List (String × JSValue)) :
    sanitizeCompoundFields props (sanitizeCompoundFields props fields) =
      sanitizeCompoundFields props fields := by
  cases props with
  | nil => rfl
  | cons k c rest =>
    simp only [propsKeys, List.nodup_cons] at hnd
    obtain ⟨hk, hndr⟩ := hnd
    simp only [WFProps, Bool.and_eq_true] at hwf
    obtain ⟨hwfc, hwfr⟩ := hwf
    cases hl : lookupField fields k with
    | none =>
      have hout : sanitizeCompoundFields (CompoundProps.cons k c rest) fields =
          sanitizeCompoundFields rest fields := by
        simp only [sanitizeCompoundFields, hl, List.nil_append]
      rw [hout]
      have hlk : lookupField (sanitizeCompoundFields rest fields) k = none :=
        lookupField_sanitize_none rest _ k hk
      simp only [sanitizeCompoundFields, hlk, List.nil_append]
      exact sanitizeCompoundFields_idem rest hndr hwfr fields
    | some v =>
      cases hd : deserializeAndSanitize c v with
      | none =>
        have hout : sanitizeCompoundFields (CompoundProps.cons k c rest) fields =
            sanitizeCompoundFields rest fields := by
          simp only [sanitizeCompoundFields, hl, hd, List.nil_append]
        rw [hout]
        have hlk : lookupField (sanitizeCompoundFields rest fields) k = none :=
          lookupField_sanitize_none rest _ k hk
        simp only [sanitizeCompoundFields, hlk, List.nil_append]
        exact sanitizeCompoundFields_idem rest hndr hwfr fields
      | some w =>
        have hout : sanitizeCompoundFields (CompoundProps.cons k c rest) fields =
            (k, w) :: sanitizeCompoundFields rest fields := by
          simp only [sanitizeCompoundFields, hl, hd, List.singleton_append]
        rw [hout]
        have hl2 : lookupField ((k, w) :: sanitizeCompoundFields rest fields) k = some w := by
          simp [lookupField]
        have hd2 : deserializeAndSanitize c w = some w :=
          deserializeAndSanitize_idem c hwfc v w hd
        simp only [sanitizeCompoundFields, hl2, hd2, List.singleton_append]
        congr 1
        have hskip : sanitizeCompoundFields rest ([(k, w)] ++ sanitizeCompoundFields rest fields) =
            sanitizeCompoundFields rest (sanitizeCompoundFields rest fields) :=
          sanitizeCompoundFields_skip rest [(k, w)] _ (by
            intro pair hp
            have hpk : pair = (k, w) := by
              cases hp with
              | head => rfl
              | tail _ hmem => cases hmem
            rw [hpk]
            exact hk)
        calc sanitizeCompoundFields rest ((k, w) :: sanitizeCompoundFields rest fields)
            = sanitizeCompoundFields rest (sanitizeCompoundFields rest fields) := hskip
          _ = sanitizeCompoundFields rest fields :=
              sanitizeCompoundFields_idem rest hndr hwfr fields
termination_by sizeOf props

end

/-- C7: for every well-formed prop-type config and every value accepted by
its sanitizer, sanitizing the sanitized value returns it unchanged, so
composing the sanitizer with itself equals one application; and a compound
sanitizer returns undefined only for a non-object input, never to swallow a
field-level failure (those merely omit the field from the partial result). -/
theorem c7_sanitize_idempotent :
    (∀ (c : PropTypeConfig) (v w : JSValue), WFConfig c = true →
      deserializeAndSanitize c v = some w → deserializeAndSanitize c w = some w) ∧
    (∀ (props : CompoundProps) (fields : List (String × JSValue)),
      deserializeAndSanitize (PropTypeConfig.compoundC props) (JSValue.obj fields) ≠ none) := by
  constructor
  · intro c v w hwf h
    exact deserializeAndSanitize_idem c hwf v w h
  · intro props fields
    simp [deserializeAndSanitize]

def cW : PropTypeConfig :=
  PropTypeConfig.compoundC (CompoundProps.cons "x" PropTypeConfig.numberC CompoundProps.nil)

/-- C7 witness: the compound config with a single numeric sub-prop sanitizes
an object with an extra field to the partial object keeping only the known
field, and re-sanitizing that output returns it unchanged. -/
theorem c7_witness :
    deserializeAndSanitize cW (JSValue.obj [("x", JSValue.num 1)]) =
      some (JSValue.obj [("x", JSValue.num 1)]) :=
  c7_sanitize_idempotent.1 cW (JSValue.obj [("x", JSValue.num 1), ("y", JSValue.num 2)])
    (JSValue.obj [("x", JSValue.num 1)]) (by rfl) (by rfl)

end Theatre
